import Mathlib

/-!
Verification of the loss-combination, checkpointing and dataset-selection
logic of the transformer-distiller repository
(`helper/distiller.py`, `helper/pretrainer.py`, `distillation_2steps.py`).

Scalar tensor values (loss terms, adaptor outputs) are modelled by `ℚ`;
Python ordered dictionaries by association lists with Python's
insert-or-overwrite and `pop` semantics; fallible Python code by `Except`.
-/

namespace Distiller

/-- A Python `dict` with `String` keys, as an ordered association list. -/
abbrev PyDict (α : Type) := List (String × α)

/-- `k in d` for a Python dict. -/
def dictContains {α : Type} (d : PyDict α) (k : String) : Bool :=
  d.any (fun p => p.1 = k)

/-- `d[k] = v` on a Python dict: overwrite in place if the key exists
(keeping its position), otherwise append at the end. -/
def dictInsert {α : Type} (d : PyDict α) (k : String) (v : α) : PyDict α :=
  if dictContains d k then d.map (fun p => if p.1 = k then (k, v) else p)
  else d ++ [(k, v)]

/-- `d.pop(k)`: remove the key, keeping the order of the other entries.
(The source only pops keys it has checked are present.) -/
def dictPop {α : Type} (d : PyDict α) (k : String) : PyDict α :=
  d.filter (fun p => p.1 ≠ k)

/-- `d[k]` lookup; the source only indexes keys that are present, the
default is never reached there.  -/
def dictIndex (d : PyDict ℚ) (k : String) : ℚ := (d.lookup k).getD 0

/-- `sum(d.values())`. -/
def dictValuesSum (d : PyDict ℚ) : ℚ := (d.map Prod.snd).sum

/-- A model output (`out_t` / `out_s`): a mapping from feature names
(`loss`, `attentions`, `hidden_states`, ...) to scalar-valued summaries. -/
abbrev Output := PyDict ℚ

/-- `out.get(k, dflt)`. -/
def outGet (o : Output) (k : String) (dflt : ℚ) : ℚ := (o.lookup k).getD dflt

/-- `out.get(k)` (defaulting to `None`). -/
def outGetOpt (o : Output) (k : String) : Option ℚ := o.lookup k

/-- An adaptor (`model/adpator.py`, not part of the analysed sources):
all that `BaseDistiller` uses is its `name`, its scalar weight `w`, and its
callable taking the teacher feature, the student feature and the mask. -/
structure Adaptor where
  name : String
  w : ℚ
  apply : Option ℚ → Option ℚ → Option ℚ → ℚ

/-- `adaptor.name.split(':')[0]` in `BaseDistiller.compute_loss`. -/
def featureName (name : String) : String := (name.splitOn ":").headD name

/-- The weighted loss term `adaptor.w * adaptor(out_t.get(f), out_s.get(f),
mask=mask)` stored by `compute_loss` under `adaptor.name`. -/
def adaptorLoss (a : Adaptor) (out_t out_s : Output) (mask : Option ℚ) : ℚ :=
  a.w * a.apply (outGetOpt out_t (featureName a.name))
                (outGetOpt out_s (featureName a.name)) mask

/-- `BaseDistiller.compute_loss` (distiller.py lines 88-100): builds the
loss dictionary from the two prediction losses and one weighted entry per
adaptor. -/
def compute_loss (adaptors : List Adaptor) (out_t out_s : Output)
    (mask : Option ℚ) : PyDict ℚ :=
  adaptors.foldl
    (fun d a => dictInsert d a.name (adaptorLoss a out_t out_s mask))
    [("pred:nll", outGet out_s "loss" 0),
     ("nll_loss_teacher", outGet out_t "loss" 0)]

/-- `BaseDistiller.training_step` (distiller.py lines 139-158): drops both
prediction terms when `pred:nll` is zero, then unconditionally drops
`nll_loss_teacher` if still present, and returns `sum(loss_dict.values())`.
(The `self.log` calls only record metrics and do not affect the value.) -/
def training_step (adaptors : List Adaptor) (out_t out_s : Output)
    (mask : Option ℚ) : ℚ :=
  let d0 := compute_loss adaptors out_t out_s mask
  let d1 := if dictIndex d0 "pred:nll" = 0
            then dictPop (dictPop d0 "pred:nll") "nll_loss_teacher"
            else d0
  let d2 := if dictContains d1 "nll_loss_teacher"
            then dictPop d1 "nll_loss_teacher"
            else d1
  dictValuesSum d2

/-- The distillation loss term of each adaptor, as listed in the
loss dictionary. -/
def adaptorEntry (out_t out_s : Output) (mask : Option ℚ) (a : Adaptor) :
    String × ℚ :=
  (a.name, adaptorLoss a out_t out_s mask)

end Distiller

namespace Ckpt

/-- An opaque in-memory model object (a `transformers` model); only its
identity matters to the checkpoint adapter. -/
structure Model where
  id : Nat
deriving DecidableEq

/-- `os.path.dirname(path)`: the path up to (excluding) the final slash. -/
def dirname (p : String) : String :=
  String.intercalate "/" ((p.splitOn "/").dropLast)

/-- A filesystem effect performed by the checkpoint adapter. -/
inductive FsEffect where
  | makedirs (dir : String)
  | savePretrained (m : Model) (path : String)
deriving DecidableEq

/-- The Lightning checkpoint dictionary, restricted to its model-valued
entries (the only ones `HgCkptIO` reads). -/
abbrev Checkpoint := Distiller.PyDict Model

/-- `HgCkptIO.save_checkpoint` (distiller.py lines 21-31): creates the parent
directory and serializes `checkpoint['student']` to `path` in
hugging-face style; indexing a missing key would raise `KeyError`. -/
def save_checkpoint (checkpoint : Checkpoint) (path : String) :
    Except String (List FsEffect) :=
  match checkpoint.lookup "student" with
  | some m => .ok [FsEffect.makedirs (dirname path),
                   FsEffect.savePretrained m path]
  | none => .error "KeyError: student"

/-- `BaseDistiller.on_save_checkpoint` (distiller.py lines 222-226): stores
the student model under the checkpoint's `student` key. -/
def on_save_checkpoint (student : Model) (checkpoint : Checkpoint) :
    Checkpoint :=
  Distiller.dictInsert checkpoint "student" student

end Ckpt

namespace Pretrainer

/-- The largest double-precision float, `sys.float_info.max`: the bound
above which `math.exp` raises `OverflowError`. -/
noncomputable def maxDouble : ℝ := 2 ^ (1024 : ℕ) - 2 ^ (971 : ℕ)

/-- Python `math.exp`: the real exponential, except that a result too
large for a double raises `OverflowError`. -/
noncomputable def mathExp (x : ℝ) : Except Unit ℝ :=
  if Real.exp x ≤ maxDouble then .ok (Real.exp x) else .error ()

/-- The `try: perplexity = math.exp(val_loss) / except OverflowError:
perplexity = float("inf")` computation of `Pretrainer.validation_epoch_end`
(pretrainer.py lines 103-109), on the extended reals. -/
noncomputable def perplexity (loss : ℝ) : EReal :=
  match mathExp loss with
  | .ok v => (v : EReal)
  | .error _ => ⊤

/-- The loss value below which `math.exp` does not overflow. -/
noncomputable def overflowThreshold : ℝ := Real.log maxDouble

end Pretrainer

namespace Script

/-- The positional-parameter counts of a Python function (excluding
`self`): parameters without defaults, and all parameters. -/
structure PySignature where
  required : Nat
  total : Nat

/-- Binding `nargs` positional arguments against a signature with no
`*args`: too few or too many raises `TypeError` before the body runs. -/
def bindPositional (sig : PySignature) (nargs : Nat) : Except String Unit :=
  if nargs < sig.required then
    .error "TypeError: missing positional arguments"
  else if sig.total < nargs then
    .error "TypeError: too many positional arguments"
  else .ok ()

/-- `BaseDistiller.__init__(self, teacher, student, args, adaptors)`
(distiller.py line 72): four positional parameters besides `self`, none
with a default. -/
def baseDistillerInitSig : PySignature := ⟨4, 4⟩

/-- Both call sites in distillation_2steps.py (lines 130-136 and 151-157)
pass five positional arguments: `teacher, student, args, attn_adaptor,
hidn_adaptor`. -/
def distillerCallNargs : Nat := 5

/-- The two training runs the top-level script would perform. -/
inductive Event where
  | fitStageOne
  | fitStageTwo
deriving DecidableEq

/-- The `__main__` block of distillation_2steps.py, reduced to the steps
that can raise before/around the two `trainer.fit` calls: each
`BaseDistiller(...)` constructor call must bind its arguments before the
corresponding fit runs.  Returns the training runs performed. -/
def mainScript : Except String (List Event) := do
  let _ ← bindPositional baseDistillerInitSig distillerCallNargs
  let stage1 := [Event.fitStageOne]
  let _ ← bindPositional baseDistillerInitSig distillerCallNargs
  pure (stage1 ++ [Event.fitStageTwo])

/-- The argument namespace. `num_classes` has parser default 2
(distiller.py line 63); `num_clases` is absent until some statement
creates it by assignment. -/
structure Args where
  trn_dataset : String
  val_dataset : String
  num_classes : Int
  num_clases : Option Int
deriving DecidableEq

/-- The parser default for `--num_classes` (distiller.py line 63). -/
def parserDefaultNumClasses : Int := 2

/-- The value the local `train` can take in `get_dataset_obj`. -/
inductive TrainSplit where
  | sst2Train
  | tweetTrain
  | mergedTrain
deriving DecidableEq

/-- The dataset object returned by `get_dataset_obj`: which validation
dataset was chosen and which train split was plugged into it. -/
structure DatasetObj where
  name : String
  train : TrainSplit
deriving DecidableEq

/-- `get_dataset_obj` (distillation_2steps.py lines 61-85).  The local
`train` is assigned only for the three recognised training-set names, and
`dataset` only for the two recognised validation-set names; reading an
unassigned local raises `UnboundLocalError`.  In the `tweet` branch the
assignment `args.num_clases = 3` creates a new attribute instead of
updating `num_classes`. -/
def get_dataset_obj (args : Args) : Except String (Args × DatasetObj) :=
  let train : Option TrainSplit :=
    if args.trn_dataset = "sst2" then some .sst2Train
    else if args.trn_dataset = "tweet" then some .tweetTrain
    else if args.trn_dataset = "sst2-tweet" then some .mergedTrain
    else none
  if args.val_dataset = "sst2" then
    let args := { args with num_classes := 2 }
    match train with
    | some tr => .ok (args, ⟨"sst2", tr⟩)
    | none => .error "UnboundLocalError: train"
  else if args.val_dataset = "tweet" then
    let args := { args with num_clases := some 3 }
    match train with
    | some tr => .ok (args, ⟨"tweet", tr⟩)
    | none => .error "UnboundLocalError: train"
  else .error "UnboundLocalError: dataset"

/-- The class counts of everything the script builds from `args` after
dataset selection: the teacher and student heads (`num_labels=` in
`get_teacher_and_student`, lines 88-107) and the four torchmetrics
objects (`BaseDistiller.__init__`, lines 82-86) all read
`args.num_classes`. -/
structure BuiltHeads where
  teacherLabels : Int
  studentLabels : Int
  accMetricClasses : Int
  f1MetricClasses : Int
deriving DecidableEq

/-- How the script instantiates models and metrics from `args`. -/
def buildHeads (args : Args) : BuiltHeads :=
  ⟨args.num_classes, args.num_classes, args.num_classes, args.num_classes⟩

/-- The metric keys `BaseDistiller.validation_epoch_end` logs
(distiller.py lines 216-220). -/
def validationEpochEndLoggedKeys : List String :=
  ["val_loss", "val_f1", "val_acc"]

/-- The `EarlyStopping` callback configuration attached to the stage-two
trainer (distillation_2steps.py lines 176-181). -/
structure EarlyStoppingCfg where
  mode : String
  patience : Nat
  min_delta : ℚ
  monitor : String
deriving DecidableEq

/-- The stage-two early stopping callback as configured in the script. -/
def stageTwoEarlyStopping : EarlyStoppingCfg :=
  ⟨"min", 6, 1 / 100, "val_nll_loss"⟩

end Script

namespace Distiller

lemma dictInsert_of_not_contains {α : Type} {d : PyDict α} {k : String}
    (v : α) (h : dictContains d k = false) :
    dictInsert d k v = d ++ [(k, v)] := by
  simp [dictInsert, h]

lemma dictContains_append {α : Type} (d₁ d₂ : PyDict α) (k : String) :
    dictContains (d₁ ++ d₂) k = (dictContains d₁ k || dictContains d₂ k) := by
  simp [dictContains, List.any_append]

lemma foldl_dictInsert_fresh (f : Adaptor → ℚ) :
    ∀ (l : List Adaptor) (d : PyDict ℚ),
    (l.map Adaptor.name).Nodup →
    (∀ a ∈ l, dictContains d a.name = false) →
    l.foldl (fun d a => dictInsert d a.name (f a)) d =
      d ++ l.map (fun a => (a.name, f a))
  | [], d, _, _ => by simp
  | a :: l, d, hnodup, hfresh => by
    have hins : dictInsert d a.name (f a) = d ++ [(a.name, f a)] :=
      dictInsert_of_not_contains _ (hfresh a (List.mem_cons_self a l))
    have hname : a.name ∉ l.map Adaptor.name := (List.nodup_cons.mp hnodup).1
    have htail :
        ∀ b ∈ l, dictContains (d ++ [(a.name, f a)]) b.name = false := by
      intro b hb
      have hne : a.name ≠ b.name := fun h =>
        hname (h ▸ List.mem_map_of_mem Adaptor.name hb)
      rw [dictContains_append, hfresh b (List.mem_cons_of_mem a hb)]
      simp [dictContains, hne]
    calc (a :: l).foldl (fun d a => dictInsert d a.name (f a)) d
        = l.foldl (fun d a => dictInsert d a.name (f a))
            (d ++ [(a.name, f a)]) := by rw [List.foldl_cons, hins]
      _ = (d ++ [(a.name, f a)]) ++ l.map (fun a => (a.name, f a)) :=
            foldl_dictInsert_fresh f l _ ((List.nodup_cons.mp hnodup).2) htail
      _ = d ++ (a :: l).map (fun a => (a.name, f a)) := by simp

/-- With pairwise-distinct adaptor names avoiding the two fixed keys, the
loss dictionary is the two prediction entries followed by one weighted
entry per adaptor, in order. -/
lemma compute_loss_append (adaptors : List Adaptor) (out_t out_s : Output)
    (mask : Option ℚ)
    (hnodup : (adaptors.map Adaptor.name).Nodup)
    (hp : ∀ a ∈ adaptors, a.name ≠ "pred:nll")
    (ht : ∀ a ∈ adaptors, a.name ≠ "nll_loss_teacher") :
    compute_loss adaptors out_t out_s mask =
      ("pred:nll", outGet out_s "loss" 0) ::
      ("nll_loss_teacher", outGet out_t "loss" 0) ::
      adaptors.map (adaptorEntry out_t out_s mask) := by
  have hfresh : ∀ a ∈ adaptors,
      dictContains [("pred:nll", outGet out_s "loss" 0),
        ("nll_loss_teacher", outGet out_t "loss" 0)] a.name = false := by
    intro a ha
    simp [dictContains, Ne.symm (hp a ha), Ne.symm (ht a ha)]
  unfold compute_loss
  rw [foldl_dictInsert_fresh (fun a => adaptorLoss a out_t out_s mask)
    adaptors _ hnodup hfresh]
  simp [adaptorEntry]

lemma filter_adaptor_entries (adaptors : List Adaptor) (out_t out_s : Output)
    (mask : Option ℚ) (k : String) (h : ∀ a ∈ adaptors, a.name ≠ k) :
    (adaptors.map (adaptorEntry out_t out_s mask)).filter
      (fun p => p.1 ≠ k) = adaptors.map (adaptorEntry out_t out_s mask) := by
  apply List.filter_eq_self.mpr
  intro p hp
  obtain ⟨a, ha, rfl⟩ := List.mem_map.mp hp
  simpa [adaptorEntry] using h a ha

lemma sum_filter_adaptor_entries (adaptors : List Adaptor)
    (out_t out_s : Output) (mask : Option ℚ) (P : String → Bool)
    (h : ∀ a ∈ adaptors, P a.name = true) :
    (List.map Prod.snd
      ((adaptors.map (adaptorEntry out_t out_s mask)).filter
        (fun p => P p.1))).sum =
      (adaptors.map (fun a => adaptorLoss a out_t out_s mask)).sum := by
  induction adaptors with
  | nil => simp
  | cons a l ih =>
    have ha : P a.name = true := h a (List.mem_cons_self a l)
    simp [List.filter_cons, adaptorEntry, ha,
      ih (fun b hb => h b (List.mem_cons_of_mem a hb))]

/-- `training_step` when a label signal exists (`pred:nll â  0`): the result
is the student prediction loss plus the weighted adaptor losses; the
`nll_loss_teacher` entry is removed by the unconditional second pop. -/
lemma training_step_of_pred_ne_zero (adaptors : List Adaptor)
    (out_t out_s : Output) (mask : Option ℚ)
    (hnodup : (adaptors.map Adaptor.name).Nodup)
    (hp : ∀ a ∈ adaptors, a.name ≠ "pred:nll")
    (ht : ∀ a ∈ adaptors, a.name ≠ "nll_loss_teacher")
    (hpred : outGet out_s "loss" 0 ≠ 0) :
    training_step adaptors out_t out_s mask =
      outGet out_s "loss" 0 +
        (adaptors.map (fun a => adaptorLoss a out_t out_s mask)).sum := by
  unfold training_step
  rw [compute_loss_append adaptors out_t out_s mask hnodup hp ht]
  simp [dictIndex, dictContains, dictPop, dictValuesSum, List.lookup, hpred]
  exact sum_filter_adaptor_entries adaptors out_t out_s mask
    (fun k => !decide (k = "nll_loss_teacher")) (fun a ha => by simp [ht a ha])

/-- `training_step` when the label signal is absent (`pred:nll = 0`): both
prediction entries are popped and only the weighted adaptor losses are
summed. -/
lemma training_step_of_pred_eq_zero (adaptors : List Adaptor)
    (out_t out_s : Output) (mask : Option ℚ)
    (hnodup : (adaptors.map Adaptor.name).Nodup)
    (hp : ∀ a ∈ adaptors, a.name ≠ "pred:nll")
    (ht : ∀ a ∈ adaptors, a.name ≠ "nll_loss_teacher")
    (hpred : outGet out_s "loss" 0 = 0) :
    training_step adaptors out_t out_s mask =
      (adaptors.map (fun a => adaptorLoss a out_t out_s mask)).sum := by
  unfold training_step
  rw [compute_loss_append adaptors out_t out_s mask hnodup hp ht]
  simp [dictIndex, dictContains, dictPop, dictValuesSum, List.lookup, hpred,
    List.filter_filter]
  exact sum_filter_adaptor_entries adaptors out_t out_s mask
    (fun k => !decide (k = "nll_loss_teacher") && !decide (k = "pred:nll"))
    (fun a ha => by simp [hp a ha, ht a ha])

lemma dictInsert_forall {α : Type} (P : α → Prop) {d : PyDict α}
    {k : String} {v : α} (hd : ∀ p ∈ d, P p.2) (hv : P v) :
    ∀ p ∈ dictInsert d k v, P p.2 := by
  intro p hp
  unfold dictInsert at hp
  by_cases hc : dictContains d k = true
  · rw [if_pos hc] at hp
    obtain ⟨q, hq, rfl⟩ := List.mem_map.mp hp
    by_cases hqk : q.1 = k
    · simpa [hqk] using hv
    · simpa [hqk] using hd q hq
  · rw [if_neg hc] at hp
    rcases List.mem_append.mp hp with h | h
    · exact hd p h
    · simpa [List.mem_singleton.mp h] using hv

lemma foldl_dictInsert_forall (P : ℚ → Prop) (f : Adaptor → ℚ) :
    ∀ (l : List Adaptor) (d : PyDict ℚ),
    (∀ p ∈ d, P p.2) → (∀ a ∈ l, P (f a)) →
    ∀ p ∈ l.foldl (fun d a => dictInsert d a.name (f a)) d, P p.2
  | [], _, hd, _ => hd
  | a :: l, _, hd, hf =>
    foldl_dictInsert_forall P f l _
      (dictInsert_forall P hd (hf a (List.mem_cons_self a l)))
      (fun b hb => hf b (List.mem_cons_of_mem a hb))

/-- Every value of the loss dictionary satisfies `P` as soon as the two
prediction losses and every weighted adaptor loss do. -/
lemma compute_loss_forall (P : ℚ → Prop) (adaptors : List Adaptor)
    (out_t out_s : Output) (mask : Option ℚ)
    (hs : P (outGet out_s "loss" 0)) (ht : P (outGet out_t "loss" 0))
    (ha : ∀ a ∈ adaptors, P (adaptorLoss a out_t out_s mask)) :
    ∀ p ∈ compute_loss adaptors out_t out_s mask, P p.2 := by
  unfold compute_loss
  refine foldl_dictInsert_forall P _ adaptors _ ?_ ha
  intro p hp
  rcases List.mem_cons.mp hp with rfl | h
  · simpa using hs
  · obtain rfl := List.mem_singleton.mp h
    simpa using ht

lemma forall_dictPop {d : PyDict ℚ} (P : ℚ → Prop) (k : String)
    (h : ∀ p ∈ d, P p.2) : ∀ p ∈ dictPop d k, P p.2 :=
  fun p hp => h p (List.mem_of_mem_filter hp)

lemma dictValuesSum_zero {d : PyDict ℚ} (h : ∀ p ∈ d, p.2 = 0) :
    dictValuesSum d = 0 := by
  refine List.sum_eq_zero ?_
  intro x hx
  obtain ⟨p, hp, rfl⟩ := List.mem_map.mp hx
  exact h p hp

/-- When the student loss, the teacher loss, and every adaptor output are
zero, `training_step` returns zero (for any adaptor weights). -/
lemma training_step_zero (adaptors : List Adaptor) (out_t out_s : Output)
    (mask : Option ℚ)
    (hs : outGet out_s "loss" 0 = 0) (ht : outGet out_t "loss" 0 = 0)
    (hz : ∀ a ∈ adaptors,
      a.apply (outGetOpt out_t (featureName a.name))
              (outGetOpt out_s (featureName a.name)) mask = 0) :
    training_step adaptors out_t out_s mask = 0 := by
  have hall : ∀ p ∈ compute_loss adaptors out_t out_s mask, p.2 = 0 :=
    compute_loss_forall (fun x => x = 0) adaptors out_t out_s mask hs ht
      (fun a ha => by simp [adaptorLoss, hz a ha])
  unfold training_step
  dsimp only
  split_ifs
  · exact dictValuesSum_zero (forall_dictPop (fun x => x = 0) _
      (forall_dictPop (fun x => x = 0) _
        (forall_dictPop (fun x => x = 0) _ hall)))
  · exact dictValuesSum_zero (forall_dictPop (fun x => x = 0) _
      (forall_dictPop (fun x => x = 0) _ hall))
  · exact dictValuesSum_zero (forall_dictPop (fun x => x = 0) _ hall)
  · exact dictValuesSum_zero hall

/-- The keys of the loss dictionary, in order. -/
lemma compute_loss_keys (adaptors : List Adaptor) (out_t out_s : Output)
    (mask : Option ℚ)
    (hnodup : (adaptors.map Adaptor.name).Nodup)
    (hp : ∀ a ∈ adaptors, a.name ≠ "pred:nll")
    (ht : ∀ a ∈ adaptors, a.name ≠ "nll_loss_teacher") :
    (compute_loss adaptors out_t out_s mask).map Prod.fst =
      "pred:nll" :: "nll_loss_teacher" :: adaptors.map Adaptor.name := by
  rw [compute_loss_append adaptors out_t out_s mask hnodup hp ht]
  simp [adaptorEntry, Function.comp]

end Distiller

namespace Ckpt

open Distiller

lemma lookup_map_overwrite {α : Type} (k : String) (v : α) :
    ∀ d : PyDict α, dictContains d k = true →
    (d.map (fun p => if p.1 = k then (k, v) else p)).lookup k = some v
  | [], h => by simp [dictContains] at h
  | p :: tl, h => by
    by_cases hpk : p.1 = k
    · simp only [List.map_cons]
      rw [show (if p.1 = k then (k, v) else p) = (k, v) from if_pos hpk]
      simp [List.lookup]
    · have hbeq : (k == p.1) = false := by
        simp [Ne.symm hpk]
      have htl : dictContains tl k = true := by
        have h' : (decide (p.1 = k) || dictContains tl k) = true := by
          simpa [dictContains] using h
        rcases Bool.or_eq_true_iff.mp h' with hd | hd
        · exact absurd (of_decide_eq_true hd) hpk
        · exact hd
      simp only [List.map_cons]
      rw [show (if p.1 = k then (k, v) else p) = p from if_neg hpk]
      simp only [List.lookup, hbeq]
      exact lookup_map_overwrite k v tl htl

lemma lookup_append_singleton {α : Type} (k : String) (v : α) :
    ∀ d : PyDict α, dictContains d k = false →
    (d ++ [(k, v)]).lookup k = some v
  | [], _ => by simp [List.lookup]
  | p :: tl, h => by
    have hcons : (decide (p.1 = k) || dictContains tl k) = false := by
      simpa [dictContains] using h
    have h1 : ¬(p.1 = k) :=
      of_decide_eq_false (Bool.or_eq_false_iff.mp hcons).1
    have h2 : dictContains tl k = false := (Bool.or_eq_false_iff.mp hcons).2
    have hbeq : (k == p.1) = false := by simp [Ne.symm h1]
    simp only [List.cons_append, List.lookup, hbeq]
    exact lookup_append_singleton k v tl h2

/-- After a Python dict assignment `d[k] = v`, looking up `k` yields `v`. -/
lemma lookup_dictInsert {α : Type} (d : PyDict α) (k : String) (v : α) :
    (dictInsert d k v).lookup k = some v := by
  unfold dictInsert
  by_cases hc : dictContains d k = true
  · rw [if_pos hc, lookup_map_overwrite k v d hc]
  · have hc' : dictContains d k = false := by simpa using hc
    rw [if_neg (by simp [hc']), lookup_append_singleton k v d hc']

/-- The effects of saving a checkpoint prepared by `on_save_checkpoint`:
one directory creation and one serialization of the student model. -/
lemma save_checkpoint_effects (student : Model) (ckpt : Checkpoint)
    (path : String) :
    save_checkpoint (on_save_checkpoint student ckpt) path =
      .ok [FsEffect.makedirs (dirname path),
           FsEffect.savePretrained student path] := by
  unfold save_checkpoint on_save_checkpoint
  rw [lookup_dictInsert]

end Ckpt

namespace Pretrainer

lemma maxDouble_big : (1 : ℝ) < maxDouble := by
  unfold maxDouble
  have h : (2 : ℝ) ^ (971 : ℕ) * 1 < 2 ^ (971 : ℕ) * 2 ^ (53 : ℕ) := by
    have h2 : (1 : ℝ) < 2 ^ (53 : ℕ) := by norm_num
    have hp : (0 : ℝ) < 2 ^ (971 : ℕ) := by positivity
    exact (mul_lt_mul_left hp).mpr h2
  have hpow : (2 : ℝ) ^ (971 : ℕ) * 2 ^ (53 : ℕ) = 2 ^ (1024 : ℕ) := by
    rw [← pow_add]
  have h1 : (1 : ℝ) ≤ 2 ^ (971 : ℕ) := one_le_pow₀ (by norm_num)
  nlinarith [h, hpow, h1]

lemma maxDouble_pos : (0 : ℝ) < maxDouble :=
  lt_trans zero_lt_one maxDouble_big

/-- Below the overflow threshold, `math.exp` succeeds and the perplexity
is the exponential of the loss. -/
lemma perplexity_of_lt (loss : ℝ) (h : loss < overflowThreshold) :
    perplexity loss = ((Real.exp loss : ℝ) : EReal) := by
  have hexp : Real.exp loss ≤ maxDouble := by
    have := Real.exp_lt_exp.mpr h
    rw [overflowThreshold, Real.exp_log maxDouble_pos] at this
    exact le_of_lt this
  unfold perplexity mathExp
  rw [if_pos hexp]

/-- When `exp(loss)` overflows a double, the recovery branch substitutes
positive infinity. -/
lemma perplexity_of_overflow (loss : ℝ) (h : maxDouble < Real.exp loss) :
    perplexity loss = ⊤ := by
  unfold perplexity mathExp
  rw [if_neg (not_le.mpr h)]

end Pretrainer

namespace Script

/-- With an unrecognised training-set name or an unrecognised
validation-set name, `get_dataset_obj` ends in an `UnboundLocalError`:
either the read of the never-assigned `train` or the final
`return dataset`. -/
lemma get_dataset_obj_unbound (args : Args)
    (h : args.trn_dataset ∉ (["sst2", "tweet", "sst2-tweet"] : List String) ∨
         args.val_dataset ∉ (["sst2", "tweet"] : List String)) :
    get_dataset_obj args = .error "UnboundLocalError: train" ∨
    get_dataset_obj args = .error "UnboundLocalError: dataset" := by
  by_cases hv1 : args.val_dataset = "sst2"
  · have htrn : args.trn_dataset ∉ (["sst2", "tweet", "sst2-tweet"] : List String) := by
      rcases h with h | h
      · exact h
      · exact absurd (by simp [hv1]) h
    simp only [List.mem_cons, List.not_mem_nil, or_false, not_or] at htrn
    obtain ⟨h1, h2, h3⟩ := htrn
    left
    simp [get_dataset_obj, hv1, h1, h2, h3]
  · by_cases hv2 : args.val_dataset = "tweet"
    · have htrn : args.trn_dataset ∉ (["sst2", "tweet", "sst2-tweet"] : List String) := by
        rcases h with h | h
        · exact h
        · exact absurd (by simp [hv2]) h
      simp only [List.mem_cons, List.not_mem_nil, or_false, not_or] at htrn
      obtain ⟨h1, h2, h3⟩ := htrn
      left
      simp [get_dataset_obj, hv1, hv2, h1, h2, h3]
    · right
      simp [get_dataset_obj, hv1, hv2]

/-- In the `tweet` validation branch, the args record that comes back has
`num_clases` newly set to 3 and everything else — in particular
`num_classes` — unchanged. -/
lemma get_dataset_obj_tweet (args : Args) (out : Args × DatasetObj)
    (hval : args.val_dataset = "tweet")
    (hok : get_dataset_obj args = .ok out) :
    out.1 = { args with num_clases := some 3 } := by
  have hns : ¬(args.val_dataset = "sst2") := by simp [hval]
  unfold get_dataset_obj at hok
  rw [if_neg hns, if_pos hval] at hok
  split at hok
  · exact congrArg Prod.fst (Except.ok.inj hok).symm
  · exact absurd hok (by simp)

end Script

/-!
## The claims
-/

open Distiller Ckpt Pretrainer Script

/-- Claim C1, counterexample: with a label signal present (student
prediction loss 1, so `pred:nll ≠ 0`), a teacher prediction loss 1, and a
single adaptor of weight 1 whose loss is 1, `training_step` returns 2 —
not the claimed total prediction + teacher + weighted-adaptor = 3.  The
teacher cross-entropy is never part of the returned loss. -/
theorem c1_teacher_term_in_sum_counterexample :
    outGet [("loss", 1), ("attentions", 3)] "loss" 0 ≠ 0 ∧
    training_step [⟨"attentions:minilm", 1, fun _ _ _ => 1⟩]
      [("loss", 1), ("attentions", 5)] [("loss", 1), ("attentions", 3)]
      none = 2 ∧
    (2 : ℚ) ≠
      outGet [("loss", 1), ("attentions", 3)] "loss" 0 +
      outGet [("loss", 1), ("attentions", 5)] "loss" 0 +
      ([(⟨"attentions:minilm", 1, fun _ _ _ => 1⟩ : Adaptor)].map
        (fun a => adaptorLoss a [("loss", 1), ("attentions", 5)]
          [("loss", 1), ("attentions", 3)] none)).sum := by
  refine ⟨by decide, ?_, ?_⟩
  · norm_num +decide [training_step, compute_loss, dictInsert, dictContains,
      dictPop, dictIndex, dictValuesSum, outGet, outGetOpt, adaptorLoss,
      List.lookup]
  · norm_num +decide [outGet, adaptorLoss, List.lookup]

/-- Claim C1, amended: for every batch in which a label signal exists
(`pred:nll ≠ 0`), the training loss returned by
`BaseDistiller.training_step` is the prediction cross-entropy plus every
adaptor's distillation loss multiplied by its scalar weight; the teacher
cross-entropy is always removed before summation, and the prediction term
is dropped only when no label signal exists.  (Adaptor names are pairwise
distinct and differ from the two fixed keys, as the program's adaptors
do.) -/
theorem c1_training_loss_drops_teacher_term (adaptors : List Adaptor)
    (out_t out_s : Output) (mask : Option ℚ)
    (hnodup : (adaptors.map Adaptor.name).Nodup)
    (hp : ∀ a ∈ adaptors, a.name ≠ "pred:nll")
    (ht : ∀ a ∈ adaptors, a.name ≠ "nll_loss_teacher")
    (hpred : outGet out_s "loss" 0 ≠ 0) :
    training_step adaptors out_t out_s mask =
      outGet out_s "loss" 0 +
        (adaptors.map (fun a => adaptorLoss a out_t out_s mask)).sum :=
  training_step_of_pred_ne_zero adaptors out_t out_s mask hnodup hp ht hpred

/-- Claim C1, witness for the amended theorem at a concrete batch. -/
theorem c1_training_loss_drops_teacher_term_witness :
    outGet [("loss", 1), ("attentions", 3)] "loss" 0 ≠ 0 ∧
    training_step [⟨"attentions:minilm", 1, fun _ _ _ => 1⟩]
      [("loss", 1), ("attentions", 5)] [("loss", 1), ("attentions", 3)]
      none =
      outGet [("loss", 1), ("attentions", 3)] "loss" 0 +
        ([(⟨"attentions:minilm", 1, fun _ _ _ => 1⟩ : Adaptor)].map
          (fun a => adaptorLoss a [("loss", 1), ("attentions", 5)]
            [("loss", 1), ("attentions", 3)] none)).sum :=
  ⟨by decide,
   c1_training_loss_drops_teacher_term _ _ _ _ (by decide) (by decide)
     (by decide) (by decide)⟩

/-- Claim C2: whenever the loss dictionary's `pred:nll` term is exactly
zero, both `pred:nll` and `nll_loss_teacher` are removed before
summation, and `training_step` returns exactly the sum of the weighted
adaptor losses. -/
theorem c2_zero_pred_sum_is_adaptor_losses (adaptors : List Adaptor)
    (out_t out_s : Output) (mask : Option ℚ)
    (hnodup : (adaptors.map Adaptor.name).Nodup)
    (hp : ∀ a ∈ adaptors, a.name ≠ "pred:nll")
    (ht : ∀ a ∈ adaptors, a.name ≠ "nll_loss_teacher")
    (hpred : outGet out_s "loss" 0 = 0) :
    training_step adaptors out_t out_s mask =
      (adaptors.map (fun a => adaptorLoss a out_t out_s mask)).sum :=
  training_step_of_pred_eq_zero adaptors out_t out_s mask hnodup hp ht hpred

/-- Claim C2, witness: a batch without labels (the student output carries
no `loss` entry, so the term defaults to 0). -/
theorem c2_zero_pred_sum_is_adaptor_losses_witness :
    outGet [("attentions", 3)] "loss" 0 = 0 ∧
    training_step [⟨"attentions:minilm", 1, fun _ _ _ => 1⟩]
      [("loss", 1), ("attentions", 5)] [("attentions", 3)] none =
      ([(⟨"attentions:minilm", 1, fun _ _ _ => 1⟩ : Adaptor)].map
        (fun a => adaptorLoss a [("loss", 1), ("attentions", 5)]
          [("attentions", 3)] none)).sum :=
  ⟨by decide,
   c2_zero_pred_sum_is_adaptor_losses _ _ _ _ (by decide) (by decide)
     (by decide) (by decide)⟩

/-- Claim C3: saving a checkpoint prepared by
`BaseDistiller.on_save_checkpoint` serializes exactly the model stored
under the `student` key (the student), and no effect ever serializes the
teacher. -/
theorem c3_save_checkpoint_student_only (teacher student : Model)
    (ckpt : Checkpoint) (path : String) (hne : teacher ≠ student) :
    ∃ effs, save_checkpoint (on_save_checkpoint student ckpt) path =
        .ok effs ∧
      (∀ m p, FsEffect.savePretrained m p ∈ effs → m = student ∧ p = path) ∧
      (∀ p, FsEffect.savePretrained teacher p ∉ effs) := by
  refine ⟨_, save_checkpoint_effects student ckpt path, ?_, ?_⟩
  · intro m p hm
    simp at hm
    exact hm
  · intro p hp
    simp at hp
    exact hne hp.1

/-- Claim C3, witness at two distinct concrete models and an empty
checkpoint dictionary. -/
theorem c3_save_checkpoint_student_only_witness :
    Model.mk 0 ≠ Model.mk 1 ∧
    ∃ effs,
      save_checkpoint (on_save_checkpoint ⟨1⟩ []) "ckpts/model" =
        .ok effs ∧
      (∀ m p, FsEffect.savePretrained m p ∈ effs →
        m = Model.mk 1 ∧ p = "ckpts/model") ∧
      (∀ p, FsEffect.savePretrained (Model.mk 0) p ∉ effs) :=
  ⟨by decide,
   c3_save_checkpoint_student_only ⟨0⟩ ⟨1⟩ [] "ckpts/model" (by decide)⟩

/-- Claim C4: the perplexity computed by
`Pretrainer.validation_epoch_end` equals `exp(loss)` whenever the loss is
below the overflow threshold `log(sys.float_info.max)`, and equals
positive infinity whenever `exp(loss)` overflows a double. -/
theorem c4_perplexity_exp_or_infinity (loss : ℝ) :
    (loss < overflowThreshold →
      perplexity loss = ((Real.exp loss : ℝ) : EReal)) ∧
    (maxDouble < Real.exp loss → perplexity loss = ⊤) :=
  ⟨perplexity_of_lt loss, perplexity_of_overflow loss⟩

/-- Claim C4, witness at loss 0: below the threshold, the perplexity is
`exp 0`. -/
theorem c4_perplexity_exp_or_infinity_witness :
    (0 : ℝ) < overflowThreshold ∧
    perplexity 0 = ((Real.exp 0 : ℝ) : EReal) :=
  have h : (0 : ℝ) < overflowThreshold := Real.log_pos maxDouble_big
  ⟨h, (c4_perplexity_exp_or_infinity 0).1 h⟩

/-- Claim C5: both `BaseDistiller(...)` call sites pass five positional
arguments to a constructor accepting four, so binding fails with a
`TypeError` and the script's main block errors out before any
`trainer.fit` runs (the event list is only produced on success). -/
theorem c5_distiller_construction_type_error :
    bindPositional baseDistillerInitSig distillerCallNargs =
      .error "TypeError: too many positional arguments" ∧
    mainScript = .error "TypeError: too many positional arguments" :=
  ⟨rfl, rfl⟩

/-- Claim C6, code evaluation: the stage-two `EarlyStopping` callback
monitors `val_nll_loss`, which is not among the keys
`BaseDistiller.validation_epoch_end` logs — the monitored metric is never
produced by the validation loop. -/
theorem c6_early_stopping_monitor_unlogged :
    stageTwoEarlyStopping.monitor = "val_nll_loss" ∧
    validationEpochEndLoggedKeys.contains stageTwoEarlyStopping.monitor =
      false := by
  constructor
  · rfl
  · decide

/-- Claim C7: when the student loss, the teacher loss and every adaptor's
loss evaluated on the two outputs are all zero, the loss combination sums
to zero: `training_step` returns 0, for any fixed adaptor weights. -/
theorem c7_zero_inputs_zero_total_loss (adaptors : List Adaptor)
    (out_t out_s : Output) (mask : Option ℚ)
    (hs : outGet out_s "loss" 0 = 0) (ht : outGet out_t "loss" 0 = 0)
    (hz : ∀ a ∈ adaptors,
      a.apply (outGetOpt out_t (featureName a.name))
              (outGetOpt out_s (featureName a.name)) mask = 0) :
    training_step adaptors out_t out_s mask = 0 :=
  training_step_zero adaptors out_t out_s mask hs ht hz

/-- Claim C7, witness: zero-valued outputs and a zero-valued adaptor with
a non-trivial weight 5. -/
theorem c7_zero_inputs_zero_total_loss_witness :
    outGet ([] : Output) "loss" 0 = 0 ∧
    outGet [("loss", 0)] "loss" 0 = 0 ∧
    training_step [⟨"attentions:minilm", 5, fun _ _ _ => 0⟩]
      [("loss", 0)] [] none = 0 :=
  ⟨by decide, by decide,
   c7_zero_inputs_zero_total_loss _ _ _ _ (by decide) (by decide)
     (by decide)⟩

/-- Claim C8: for any argument namespace whose training-set name is not
one of `sst2`, `tweet`, `sst2-tweet`, or whose validation-set name is not
one of `sst2`, `tweet`, `get_dataset_obj` ends in an uncaught
`UnboundLocalError` (reading the never-assigned `train`, or returning the
never-assigned `dataset`). -/
theorem c8_invalid_dataset_unbound_local (args : Args)
    (h : args.trn_dataset ∉ (["sst2", "tweet", "sst2-tweet"] : List String) ∨
         args.val_dataset ∉ (["sst2", "tweet"] : List String)) :
    get_dataset_obj args = .error "UnboundLocalError: train" ∨
    get_dataset_obj args = .error "UnboundLocalError: dataset" :=
  get_dataset_obj_unbound args h

/-- Claim C8, witness: an unrecognised training-set name with a valid
validation-set name. -/
theorem c8_invalid_dataset_unbound_local_witness :
    ((Args.mk "imdb" "sst2" 2 none).trn_dataset ∉
      (["sst2", "tweet", "sst2-tweet"] : List String) ∨
     (Args.mk "imdb" "sst2" 2 none).val_dataset ∉
      (["sst2", "tweet"] : List String)) ∧
    (get_dataset_obj ⟨"imdb", "sst2", 2, none⟩ =
        .error "UnboundLocalError: train" ∨
     get_dataset_obj ⟨"imdb", "sst2", 2, none⟩ =
        .error "UnboundLocalError: dataset") :=
  ⟨by decide, c8_invalid_dataset_unbound_local _ (by decide)⟩

/-- Claim C9, counterexample: for a student output whose loss entry is
negative, the loss dictionary holds a negative value — the values are not
unconditionally non-negative for every pair of outputs. -/
theorem c9_negative_value_counterexample :
    (compute_loss [] [] [("loss", -1)] none).lookup "pred:nll" =
      some (-1) ∧ ¬((0 : ℚ) ≤ -1) := by
  constructor
  · decide
  · decide

/-- Claim C9, amended: with pairwise-distinct adaptor names differing
from the two fixed keys, the loss dictionary built by `compute_loss` has
unique string keys; and its values are all non-negative provided the
student loss, teacher loss and every weighted adaptor loss are
non-negative (all values are rationals, hence finite; the dictionary is
built afresh from the step's inputs inside each training step). -/
theorem c9_loss_dict_key_value_invariants (adaptors : List Adaptor)
    (out_t out_s : Output) (mask : Option ℚ)
    (hnodup : (adaptors.map Adaptor.name).Nodup)
    (hp : ∀ a ∈ adaptors, a.name ≠ "pred:nll")
    (ht : ∀ a ∈ adaptors, a.name ≠ "nll_loss_teacher")
    (hs : 0 ≤ outGet out_s "loss" 0) (hto : 0 ≤ outGet out_t "loss" 0)
    (hw : ∀ a ∈ adaptors, 0 ≤ adaptorLoss a out_t out_s mask) :
    ((compute_loss adaptors out_t out_s mask).map Prod.fst).Nodup ∧
    (∀ p ∈ compute_loss adaptors out_t out_s mask, 0 ≤ p.2) := by
  constructor
  · rw [compute_loss_keys adaptors out_t out_s mask hnodup hp ht]
    have k1 : "pred:nll" ∉ adaptors.map Adaptor.name := by
      intro hmem
      obtain ⟨a, ha, hname⟩ := List.mem_map.mp hmem
      exact hp a ha hname
    have k2 : "nll_loss_teacher" ∉ adaptors.map Adaptor.name := by
      intro hmem
      obtain ⟨a, ha, hname⟩ := List.mem_map.mp hmem
      exact ht a ha hname
    simp [List.nodup_cons, k1, k2, hnodup]
  · exact compute_loss_forall (fun x => 0 ≤ x) adaptors out_t out_s mask
      hs hto hw

/-- Claim C9, witness at a concrete batch with one adaptor. -/
theorem c9_loss_dict_key_value_invariants_witness :
    (0 : ℚ) ≤ outGet [("loss", 2)] "loss" 0 ∧
    ((compute_loss [⟨"attentions:minilm", 1, fun _ _ _ => 1⟩]
      [("loss", 1)] [("loss", 2)] none).map Prod.fst).Nodup ∧
    (∀ p ∈ compute_loss [⟨"attentions:minilm", 1, fun _ _ _ => 1⟩]
      [("loss", 1)] [("loss", 2)] none, 0 ≤ p.2) := by
  have h := c9_loss_dict_key_value_invariants
    [⟨"attentions:minilm", 1, fun _ _ _ => 1⟩] [("loss", 1)] [("loss", 2)]
    none (by decide) (by decide) (by decide) (by decide) (by decide)
    (by
      intro a ha
      rcases List.mem_singleton.mp ha with rfl
      norm_num [adaptorLoss])
  exact ⟨by decide, h.1, h.2⟩

/-- Claim C10: when the validation dataset is `tweet`, `get_dataset_obj`
assigns the misspelled attribute `num_clases` (to 3) instead of
`num_classes`, so `num_classes` keeps its previous value — with the
parser default, 2 — and every model head and metric is subsequently built
with that unchanged class count. -/
theorem c10_tweet_num_clases_typo (args : Args) (out : Args × DatasetObj)
    (hval : args.val_dataset = "tweet")
    (hok : get_dataset_obj args = .ok out) :
    out.1.num_classes = args.num_classes ∧
    out.1.num_clases = some 3 ∧
    buildHeads out.1 =
      ⟨args.num_classes, args.num_classes, args.num_classes,
       args.num_classes⟩ := by
  have h := get_dataset_obj_tweet args out hval hok
  rw [h]
  exact ⟨rfl, rfl, rfl⟩

/-- Claim C10, witness: the tweet task with the parser default
`num_classes = 2` yields a namespace still carrying `num_classes = 2`
(and the new `num_clases = 3`), so all heads get two classes. -/
theorem c10_tweet_num_clases_typo_witness :
    (Args.mk "tweet" "tweet" 2 none).val_dataset = "tweet" ∧
    get_dataset_obj ⟨"tweet", "tweet", 2, none⟩ =
      .ok (⟨"tweet", "tweet", 2, some 3⟩, ⟨"tweet", .tweetTrain⟩) ∧
    ((Args.mk "tweet" "tweet" 2 (some 3)).num_classes =
        (Args.mk "tweet" "tweet" 2 none).num_classes ∧
      (Args.mk "tweet" "tweet" 2 (some 3)).num_clases = some 3 ∧
      buildHeads ⟨"tweet", "tweet", 2, some 3⟩ = ⟨2, 2, 2, 2⟩) :=
  ⟨rfl, rfl,
   c10_tweet_num_clases_typo ⟨"tweet", "tweet", 2, none⟩
     (⟨"tweet", "tweet", 2, some 3⟩, ⟨"tweet", .tweetTrain⟩) rfl rfl⟩
